import Mathlib

/-!
# Verification of the ScoutLE statistics code

A shallow embedding of the pure computational core of the ScoutLE
repository (champion analysis, manual match storage, tournament stats,
hybrid account combination, and the cached Riot API client), together
with theorems settling the specification claims.

Python floats are modelled as rationals (`ℚ`), Python ints as `Int` or
`Nat` matching their use, dictionaries as insertion-ordered association
lists, and wall-clock time as an explicit rational parameter.
-/

/-- Arithmetic mean of a list of rationals (`statistics.mean`; callers
guard against the empty list). -/
def listMean (l : List ℚ) : ℚ := l.sum / l.length

/-- Lookup in an insertion-ordered association list (Python dict access). -/
def lookupKey {α : Type} (c : String) : List (String × α) → Option α
  | [] => none
  | (k, v) :: rest => if k = c then some v else lookupKey c rest

/-- Python dict assignment `d[k] = v`: overwrite the value at an
existing key in place, else append the new entry at the end. -/
def dictInsert {α : Type} (k : String) (v : α) :
    List (String × α) → List (String × α)
  | [] => [(k, v)]
  | (k', v') :: tl =>
      if k' = k then (k', v) :: tl else (k', v') :: dictInsert k v tl

/-- Python `str.lower()` (`String.toLower`, written as the character map
so that proofs can evaluate it on literals). -/
def strLower (s : String) : String := ⟨s.data.map Char.toLower⟩

/-! ## `manual_matches_storage.py` -/

/-- `ManualMatch` dataclass from `manual_matches_storage.py`. -/
structure ManualMatch where
  match_id : String
  summoner_name : String
  champion_name : String
  result : String
  kills : ℚ
  deaths : ℚ
  assists : ℚ
  cs : ℚ
  game_duration : Int
  queue_type : String
  date : String
  notes : String
deriving DecidableEq, Repr

/-- `ManualMatch.kda`: `(kills + assists) / deaths`, or `kills + assists`
when `deaths == 0`. -/
def ManualMatch.kda (m : ManualMatch) : ℚ :=
  if m.deaths = 0 then m.kills + m.assists
  else (m.kills + m.assists) / m.deaths

/-- `ManualMatch.cs_per_min`: `cs / game_duration`, or `0` when the
duration is `0`. -/
def ManualMatch.cs_per_min (m : ManualMatch) : ℚ :=
  if m.game_duration = 0 then 0
  else m.cs / (m.game_duration : ℚ)

namespace ManualMatchStorage

/-- `ManualMatchStorage.add_match`: refuse a duplicate `match_id`, else
append.  Returns the Python return value and the new stored list. -/
def add_match (ms : List ManualMatch) (m : ManualMatch) :
    Bool × List ManualMatch :=
  if ms.any (fun x => x.match_id == m.match_id) then (false, ms)
  else (true, ms ++ [m])

/-- `ManualMatchStorage.remove_match`: drop every match with the id;
returns whether the list shrank. -/
def remove_match (ms : List ManualMatch) (mid : String) :
    Bool × List ManualMatch :=
  let kept := ms.filter (fun m => m.match_id != mid)
  if kept.length < ms.length then (true, kept) else (false, ms)

/-- `ManualMatchStorage.clear_all_matches`. -/
def clear_all_matches (_ms : List ManualMatch) : List ManualMatch := []

/-- `ManualMatchStorage.get_matches_for_summoner`: case-insensitive
summoner-name filter. -/
def get_matches_for_summoner (ms : List ManualMatch) (summoner_name : String) :
    List ManualMatch :=
  ms.filter (fun m => strLower m.summoner_name == strLower summoner_name)

/-- The dictionary returned by `ManualMatchStorage.get_champion_stats`. -/
structure ChampionStatsDict where
  champion_name : String
  games_played : Nat
  wins : Nat
  losses : Nat
  win_rate : ℚ
  kills : ℚ
  deaths : ℚ
  assists : ℚ
  kda : ℚ
  cs_per_min : ℚ
deriving DecidableEq, Repr

/-- `ManualMatchStorage.get_champion_stats`: aggregate the matches whose
summoner and champion both match case-insensitively; `None` when there
are no such matches. -/
def get_champion_stats (ms : List ManualMatch)
    (summoner_name champion_name : String) : Option ChampionStatsDict :=
  let selected := ms.filter (fun m =>
    strLower m.summoner_name == strLower summoner_name &&
    strLower m.champion_name == strLower champion_name)
  if selected = [] then none
  else
    let games := selected.length
    let wins := selected.countP (fun m => m.result == "WIN")
    let losses := games - wins
    let win_rate : ℚ := if games > 0 then ((wins : ℚ) / games) * 100 else 0
    let total_kills := (selected.map (·.kills)).sum
    let total_deaths := (selected.map (·.deaths)).sum
    let total_assists := (selected.map (·.assists)).sum
    let total_cs := (selected.map (·.cs)).sum
    let total_duration := (selected.map (·.game_duration)).sum
    some
      { champion_name := champion_name
        games_played := games
        wins := wins
        losses := losses
        win_rate := win_rate
        kills := total_kills / games
        deaths := total_deaths / games
        assists := total_assists / games
        kda :=
          if total_deaths > 0 then
            (total_kills + total_assists) / total_deaths
          else total_kills + total_assists
        cs_per_min :=
          if total_duration > 0 then total_cs / (total_duration : ℚ) else 0 }

end ManualMatchStorage

/-! ## `models.py` -/

/-- `MatchPerformance` dataclass from `models.py`. -/
structure MatchPerformance where
  match_id : String
  champion : String
  role : String
  kills : Int
  deaths : Int
  assists : Int
  win : Bool
  game_duration : Int
  game_mode : String
deriving DecidableEq, Repr

/-- `MatchPerformance.kda`: `(kills + assists) / deaths`, or
`float(kills + assists)` when `deaths == 0`. -/
def MatchPerformance.kda (m : MatchPerformance) : ℚ :=
  if m.deaths = 0 then ((m.kills + m.assists : Int) : ℚ)
  else ((m.kills + m.assists : Int) : ℚ) / (m.deaths : ℚ)

/-! ## `champion_analyzer.py` -/

/-- One participant entry of a Riot match-detail payload, with the fields
`ChampionAnalyzer` reads (each `participant.get(k, default)` becomes a
field). -/
structure Participant where
  puuid : String
  championName : String
  win : Bool
  teamPosition : String
  kills : Nat
  deaths : Nat
  assists : Nat
  totalMinionsKilled : Nat
  neutralMinionsKilled : Nat
  goldEarned : Nat
  totalDamageDealtToChampions : Nat
deriving DecidableEq, Repr

/-- The `info` object of a Riot match-detail payload. -/
structure MatchInfo where
  gameDuration : Nat
  participants : List Participant
deriving DecidableEq, Repr

/-- A Riot match-detail payload. -/
structure MatchDto where
  info : MatchInfo
deriving DecidableEq, Repr

namespace ChampionAnalyzer

/-- `ChampionAnalyzer._extract_player_data`: the first participant whose
`puuid` matches (the empty dict of the Python code becomes `none`). -/
def extract_player_data (m : MatchDto) (player_puuid : String) :
    Option Participant :=
  m.info.participants.find? (fun p => p.puuid == player_puuid)

/-- Per-game KDA inside `analyze_matches`:
`(kills + assists) / deaths if deaths > 0 else kills + assists`. -/
def gameKda (kills deaths assists : Nat) : ℚ :=
  if deaths > 0 then ((kills : ℚ) + (assists : ℚ)) / (deaths : ℚ)
  else (kills : ℚ) + (assists : ℚ)

/-- Per-minute rate inside `analyze_matches`: the total divided by
`gameDuration / 60` minutes, or `0` when the duration is not positive. -/
def ratePerMin (total gameDuration : Nat) : ℚ :=
  let minutes : ℚ := (gameDuration : ℚ) / 60
  if minutes > 0 then (total : ℚ) / minutes else 0

/-- The per-champion accumulator dict of `analyze_matches`. -/
structure ChampAcc where
  games : List MatchDto
  wins : Nat
  losses : Nat
  roles : List (String × Nat)
  kdas : List ℚ
  kills : List Nat
  deaths : List Nat
  assists : List Nat
  cs_per_min : List ℚ
  gold_per_min : List ℚ
  damage_per_min : List ℚ
deriving Repr

/-- The `defaultdict` initial value. -/
def emptyAcc : ChampAcc :=
  ⟨[], 0, 0, [], [], [], [], [], [], [], []⟩

/-- `Counter` increment: bump the count of `r`, inserting it at the end
on first occurrence. -/
def bumpRole (r : String) : List (String × Nat) → List (String × Nat)
  | [] => [(r, 1)]
  | (k, n) :: rest =>
      if k = r then (k, n + 1) :: rest else (k, n) :: bumpRole r rest

/-- The loop body of `analyze_matches` on one match whose participant
was found. -/
def processMatch (a : ChampAcc) (m : MatchDto) (p : Participant) : ChampAcc :=
  { games := a.games ++ [m]
    wins := if p.win then a.wins + 1 else a.wins
    losses := if p.win then a.losses else a.losses + 1
    roles :=
      if p.teamPosition ≠ "Unknown" then bumpRole p.teamPosition a.roles
      else a.roles
    kdas := a.kdas ++ [gameKda p.kills p.deaths p.assists]
    kills := a.kills ++ [p.kills]
    deaths := a.deaths ++ [p.deaths]
    assists := a.assists ++ [p.assists]
    cs_per_min := a.cs_per_min ++
      [ratePerMin (p.totalMinionsKilled + p.neutralMinionsKilled)
        m.info.gameDuration]
    gold_per_min := a.gold_per_min ++
      [ratePerMin p.goldEarned m.info.gameDuration]
    damage_per_min := a.damage_per_min ++
      [ratePerMin p.totalDamageDealtToChampions m.info.gameDuration] }

/-- Update the insertion-ordered champion dict at key `k`, creating the
`defaultdict` entry when absent. -/
def updateAccMap (k : String) (m : MatchDto) (p : Participant) :
    List (String × ChampAcc) → List (String × ChampAcc)
  | [] => [(k, processMatch emptyAcc m p)]
  | (k', a) :: rest =>
      if k' = k then (k', processMatch a m p) :: rest
      else (k', a) :: updateAccMap k m p rest

/-- One iteration of the `for match in matches` loop. -/
def accStep (player_puuid : String) (am : List (String × ChampAcc))
    (m : MatchDto) : List (String × ChampAcc) :=
  match extract_player_data m player_puuid with
  | none => am
  | some p => updateAccMap p.championName m p am

/-- The champion dict after the whole match loop. -/
def buildAccMap (ms : List MatchDto) (player_puuid : String) :
    List (String × ChampAcc) :=
  ms.foldl (accStep player_puuid) []

/-- `ChampionAnalyzer._calculate_performance_trend`. -/
def calculate_performance_trend (kdas : List ℚ) : String :=
  if kdas.length < 4 then "stable"
  else
    let mid_point := kdas.length / 2
    let first_half := kdas.take mid_point
    let second_half := kdas.drop mid_point
    let first_avg := listMean first_half
    let second_avg := listMean second_half
    if second_avg > first_avg * (11 / 10) then "improving"
    else if second_avg < first_avg * (9 / 10) then "declining"
    else "stable"

/-- `Counter.most_common(1)[0][0]`: the first key attaining the maximal
count (Python's sort is stable). -/
def mostCommonKey (first : String × Nat) :
    List (String × Nat) → String
  | [] => first.1
  | (k, n) :: rest =>
      if n > first.2 then mostCommonKey (k, n) rest
      else mostCommonKey first rest

/-- The `ChampionStats` dataclass. -/
structure ChampionStats where
  champion_name : String
  games_played : Nat
  wins : Nat
  losses : Nat
  win_rate : ℚ
  avg_kda : ℚ
  avg_kills : ℚ
  avg_deaths : ℚ
  avg_assists : ℚ
  avg_cs_per_min : ℚ
  avg_gold_per_min : ℚ
  avg_damage_per_min : ℚ
  most_common_role : String
  performance_trend : String
deriving DecidableEq, Repr

/-- The conversion of one accumulator entry into a `ChampionStats`
record (the second loop of `analyze_matches`). -/
def toStats (champion : String) (a : ChampAcc) : ChampionStats :=
  let games_played := a.games.length
  { champion_name := champion
    games_played := games_played
    wins := a.wins
    losses := a.losses
    win_rate :=
      if games_played > 0 then ((a.wins : ℚ) / games_played) * 100 else 0
    avg_kda := if a.kdas ≠ [] then listMean a.kdas else 0
    avg_kills :=
      if a.kills ≠ [] then listMean (a.kills.map (fun k => (k : ℚ))) else 0
    avg_deaths :=
      if a.deaths ≠ [] then listMean (a.deaths.map (fun k => (k : ℚ))) else 0
    avg_assists :=
      if a.assists ≠ [] then listMean (a.assists.map (fun k => (k : ℚ)))
      else 0
    avg_cs_per_min := if a.cs_per_min ≠ [] then listMean a.cs_per_min else 0
    avg_gold_per_min :=
      if a.gold_per_min ≠ [] then listMean a.gold_per_min else 0
    avg_damage_per_min :=
      if a.damage_per_min ≠ [] then listMean a.damage_per_min else 0
    most_common_role :=
      match a.roles with
      | [] => "Unknown"
      | r :: rest => mostCommonKey r rest
    performance_trend := calculate_performance_trend a.kdas }

/-- `ChampionAnalyzer.analyze_matches`: build the per-champion dict then
convert each entry, skipping champions with no games. -/
def analyze_matches (ms : List MatchDto) (player_puuid : String) :
    List (String × ChampionStats) :=
  (buildAccMap ms player_puuid).filterMap (fun ca =>
    if ca.2.games = [] then none else some (ca.1, toStats ca.1 ca.2))

end ChampionAnalyzer

/-! ## `tournament_scraper.py` -/

/-- `TournamentGame` dataclass from `tournament_scraper.py`. -/
structure TournamentGame where
  game_id : String
  game_type : String
  tournament_code : String
  date : String
  duration : Int
  result : String
  champion : String
  role : String
  kills : Int
  deaths : Int
  assists : Int
  kda : ℚ
  cs : Int
  gold : Int
  damage : Int
  vision_score : Int
  team_composition : List String
  enemy_composition : List String
deriving DecidableEq, Repr

/-- `TournamentStats` dataclass from `tournament_scraper.py`. -/
structure TournamentStats where
  total_tournament_games : Nat
  tournament_wins : Nat
  tournament_losses : Nat
  tournament_win_rate : ℚ
  most_played_champion : String
  best_performing_champion : String
  average_kda : ℚ
  average_cs : ℚ
  average_damage : ℚ
  tournament_codes : List String
  recent_tournaments : List TournamentGame
deriving DecidableEq, Repr

namespace TournamentScraper

/-- `TournamentScraper._create_empty_tournament_stats`. -/
def create_empty_tournament_stats : TournamentStats :=
  { total_tournament_games := 0
    tournament_wins := 0
    tournament_losses := 0
    tournament_win_rate := 0
    most_played_champion := "None"
    best_performing_champion := "None"
    average_kda := 0
    average_cs := 0
    average_damage := 0
    tournament_codes := []
    recent_tournaments := [] }

/-- The per-champion `{'games', 'wins', 'kda'}` accumulator dict of
`_calculate_tournament_stats`. -/
structure ChampAgg where
  games : Nat
  wins : Nat
  kda : ℚ
deriving DecidableEq, Repr

/-- One step of the champion-stats loop of
`_calculate_tournament_stats`: update the insertion-ordered dict at the
game's champion (skipping champion `"Unknown"`). -/
def champStep (g : TournamentGame) :
    List (String × ChampAgg) → List (String × ChampAgg)
  | [] =>
      if g.champion ≠ "Unknown" then
        [(g.champion,
          { games := 1
            wins := if g.result = "WIN" then 1 else 0
            kda := g.kda })]
      else []
  | (k, a) :: rest =>
      if g.champion ≠ "Unknown" ∧ k = g.champion then
        (k,
          { games := a.games + 1
            wins := if g.result = "WIN" then a.wins + 1 else a.wins
            kda := a.kda + g.kda }) :: rest
      else (k, a) :: champStep g rest

/-- `max(keys, key=...)` over an insertion-ordered dict: the first key
attaining the maximal value of `f` (Python's `max` keeps the first). -/
def maxKeyBy (f : ChampAgg → ℚ) (first : String × ChampAgg) :
    List (String × ChampAgg) → String
  | [] => first.1
  | (k, a) :: rest =>
      if f a > f first.2 then maxKeyBy f (k, a) rest
      else maxKeyBy f first rest

/-- `sorted(games, key=lambda x: x.date, reverse=True)`: stable
descending sort by date. -/
def sortByDateDesc (gs : List TournamentGame) : List TournamentGame :=
  gs.mergeSort (fun a b => b.date ≤ a.date)

/-- `TournamentScraper._calculate_tournament_stats`. -/
def calculate_tournament_stats (tournament_games : List TournamentGame)
    (tournament_codes : List String) : TournamentStats :=
  if tournament_games = [] then create_empty_tournament_stats
  else
    let total_games := tournament_games.length
    let wins := tournament_games.countP (fun g => g.result == "WIN")
    let losses := tournament_games.countP (fun g => g.result == "LOSS")
    let win_rate : ℚ :=
      if total_games > 0 then ((wins : ℚ) / total_games) * 100 else 0
    let total_kda :=
      ((tournament_games.filter (fun g => g.kda > 0)).map (·.kda)).sum
    let total_cs :=
      ((tournament_games.filter (fun g => g.cs > 0)).map (·.cs)).sum
    let total_damage :=
      ((tournament_games.filter (fun g => g.damage > 0)).map (·.damage)).sum
    let avg_kda : ℚ := if total_games > 0 then total_kda / total_games else 0
    let avg_cs : ℚ :=
      if total_games > 0 then (total_cs : ℚ) / total_games else 0
    let avg_damage : ℚ :=
      if total_games > 0 then (total_damage : ℚ) / total_games else 0
    let champion_stats := tournament_games.foldl (fun d g => champStep g d) []
    let most_played :=
      match champion_stats with
      | [] => "Unknown"
      | c :: rest => maxKeyBy (fun a => (a.games : ℚ)) c rest
    let best_performing :=
      match champion_stats with
      | [] => "Unknown"
      | c :: rest => maxKeyBy (fun a => a.kda) c rest
    { total_tournament_games := total_games
      tournament_wins := wins
      tournament_losses := losses
      tournament_win_rate := win_rate
      most_played_champion := most_played
      best_performing_champion := best_performing
      average_kda := avg_kda
      average_cs := avg_cs
      average_damage := avg_damage
      tournament_codes := tournament_codes
      recent_tournaments := (sortByDateDesc tournament_games).take 10 }

end TournamentScraper

/-! ## `simple_account_scraper.py`, `riot_api_scraper.py`, `hybrid_scraper.py` -/

/-- `ChampionPerformance` dataclass from `simple_account_scraper.py`
(the op.gg format). -/
structure ChampionPerformance where
  champion_name : String
  games_played : Nat
  wins : Nat
  losses : Nat
  win_rate : ℚ
  kills : ℚ
  deaths : ℚ
  assists : ℚ
  kda : ℚ
  cs_per_min : ℚ
  queue_type : String
deriving DecidableEq, Repr

/-- `PlayerAccount` dataclass from `simple_account_scraper.py`. -/
structure PlayerAccount where
  summoner_name : String
  region : String
  level : Int
  soloq_rank : String
  flex_rank : String
  soloq_lp : Int
  flex_lp : Int
  champion_performances : List ChampionPerformance
  last_updated : String
deriving DecidableEq, Repr

/-- `RiotChampionPerformance` dataclass from `riot_api_scraper.py`. -/
structure RiotChampionPerformance where
  champion_name : String
  champion_id : Int
  games_played : Nat
  wins : Nat
  losses : Nat
  win_rate : ℚ
  kills : ℚ
  deaths : ℚ
  assists : ℚ
  kda : ℚ
  cs_per_min : ℚ
  queue_type : String
deriving DecidableEq, Repr

/-- `RiotPlayerAccount` dataclass from `riot_api_scraper.py`.  It has
every base field `_combine_data_sources` probes with `hasattr`. -/
structure RiotPlayerAccount where
  summoner_name : String
  summoner_id : String
  puuid : String
  region : String
  level : Int
  soloq_rank : String
  flex_rank : String
  soloq_lp : Int
  flex_lp : Int
  champion_performances : List RiotChampionPerformance
  last_updated : String
deriving DecidableEq, Repr

namespace HybridScraper

/-- `{champ.champion_name: champ for champ in ...}`: insertion-ordered
dict keyed by champion name, a later duplicate overwriting in place. -/
def buildChampDict {α : Type} (name : α → String) (l : List α) :
    List (String × α) :=
  l.foldl (fun d c => dictInsert (name c) c d) []

/-- The Riot→op.gg champion record conversion inside
`_combine_data_sources`. -/
def convertRiotChamp (c : RiotChampionPerformance) : ChampionPerformance :=
  { champion_name := c.champion_name
    games_played := c.games_played
    wins := c.wins
    losses := c.losses
    win_rate := c.win_rate
    kills := c.kills
    deaths := c.deaths
    assists := c.assists
    kda := c.kda
    cs_per_min := c.cs_per_min
    queue_type := c.queue_type }

/-- `combined_champions.sort(key=lambda x: x.games_played, reverse=True)`:
stable descending sort by games played. -/
def sortByGamesDesc (cs : List ChampionPerformance) :
    List ChampionPerformance :=
  cs.mergeSort (fun a b => b.games_played ≤ a.games_played)

/-- `HybridScraper._combine_data_sources`.  `now` stands for
`time.strftime(...)` at the moment of the call. -/
def combine_data_sources (opgg_data : PlayerAccount)
    (riot_data : RiotPlayerAccount) (now : String) : PlayerAccount :=
  let opgg_champions :=
    buildChampDict ChampionPerformance.champion_name
      opgg_data.champion_performances
  let riot_champions :=
    buildChampDict RiotChampionPerformance.champion_name
      riot_data.champion_performances
  let combined_champions :=
    opgg_champions.map (·.2) ++
      ((riot_champions.filter (fun e =>
          (lookupKey e.1 opgg_champions).isNone)).map
        (fun e => convertRiotChamp e.2))
  let sorted_champions := sortByGamesDesc combined_champions
  if riot_data.level > opgg_data.level ∨
      riot_data.champion_performances.length >
        opgg_data.champion_performances.length then
    { summoner_name := riot_data.summoner_name
      region := riot_data.region
      level := riot_data.level
      soloq_rank := riot_data.soloq_rank
      flex_rank := riot_data.flex_rank
      soloq_lp := riot_data.soloq_lp
      flex_lp := riot_data.flex_lp
      champion_performances := sorted_champions
      last_updated := now }
  else
    { summoner_name := opgg_data.summoner_name
      region := opgg_data.region
      level := opgg_data.level
      soloq_rank := opgg_data.soloq_rank
      flex_rank := opgg_data.flex_rank
      soloq_lp := opgg_data.soloq_lp
      flex_lp := opgg_data.flex_lp
      champion_performances := sorted_champions
      last_updated := now }

end HybridScraper

/-! ## `config.py` and `api_client.py` -/

/-- `CACHE_DURATION` from `config.py` (seconds). -/
def CACHE_DURATION : ℚ := 300

/-- `RATE_LIMIT_DELAY` from `config.py` (seconds). -/
def RATE_LIMIT_DELAY : ℚ := 1 / 10

namespace RiotAPIClient

/-- An externally visible action of `make_request`. -/
inductive ReqEvent where
  | sleep (seconds : ℚ)
  | httpGet (url : String) (params : String)
deriving DecidableEq, Repr

/-- Whether an event is an HTTP request. -/
def ReqEvent.isHttp : ReqEvent → Bool
  | .sleep _ => false
  | .httpGet _ _ => true

/-- The in-memory cache `self.cache`: the f-string key maps to the
payload and the `time.time()` stamp of when it was stored. -/
def Cache (α : Type) : Type := List (String × (α × ℚ))

/-- `cache_key = f"{url}_{params}"` (with `params` already rendered as
its Python string form). -/
def mkCacheKey (url params : String) : String := url ++ "_" ++ params

/-- The outcome of one `make_request` call. -/
structure ReqResult (α : Type) where
  value : Option α
  cache : Cache α
  events : List ReqEvent

/-- `RiotAPIClient.make_request`.  `tCheck` is `time.time()` at the cache
check and `tStore` at the moment the fresh response is cached; `http` is
what the HTTP layer would deliver (`none` = `RequestException`). -/
def make_request {α : Type} (cache : Cache α) (url params : String)
    (tCheck tStore : ℚ) (http : Option α) : ReqResult α :=
  let key := mkCacheKey url params
  let fetch : ReqResult α :=
    match http with
    | some data =>
        { value := some data
          cache := dictInsert key (data, tStore) cache
          events := [.sleep RATE_LIMIT_DELAY, .httpGet url params] }
    | none =>
        { value := none
          cache := cache
          events := [.sleep RATE_LIMIT_DELAY, .httpGet url params] }
  match lookupKey key cache with
  | some (data, timestamp) =>
      if tCheck - timestamp < CACHE_DURATION then
        { value := some data, cache := cache, events := [] }
      else fetch
  | none => fetch

/-- The URL built by `RiotAPIClient.get_ranked_stats`. -/
def rankedUrl (base_url summoner_id : String) : String :=
  base_url ++ "/lol/league/v4/entries/by-summoner/" ++ summoner_id

/-- `RiotAPIClient.get_ranked_stats`: an empty list when the request
result is falsy (`None` or the empty list), else the payload.  The
payload type is the JSON list of league entries, kept abstract. -/
def get_ranked_stats {α : Type} (cache : Cache (List α))
    (base_url summoner_id : String) (tCheck tStore : ℚ)
    (http : Option (List α)) : List α × Cache (List α) × List ReqEvent :=
  let r := make_request cache (rankedUrl base_url summoner_id) "None"
    tCheck tStore http
  match r.value with
  | none => ([], r.cache, r.events)
  | some l => (if l.isEmpty then [] else l, r.cache, r.events)

/-- The URL built by `RiotAPIClient.get_match_history`. -/
def matchHistoryUrl (base_url puuid : String) (count : Nat) : String :=
  base_url ++ "/lol/match/v5/matches/by-puuid/" ++ puuid ++ "/ids?count=" ++
    toString count

/-- The Python `str` form of `{"count": count, "start": 0}`, as it is
interpolated into the cache key. -/
def matchHistoryParams (count : Nat) : String :=
  "\x7b'count': " ++ toString count ++ ", 'start': 0\x7d"

/-- `RiotAPIClient.get_match_history`: `result if result else []`. -/
def get_match_history (cache : Cache (List String))
    (base_url puuid : String) (count : Nat) (tCheck tStore : ℚ)
    (http : Option (List String)) :
    List String × Cache (List String) × List ReqEvent :=
  let r := make_request cache (matchHistoryUrl base_url puuid count)
    (matchHistoryParams count) tCheck tStore http
  match r.value with
  | none => ([], r.cache, r.events)
  | some l => (if l.isEmpty then [] else l, r.cache, r.events)

end RiotAPIClient

/-! ## Concrete fixtures used by the witnesses -/

/-- A concrete manual match with nonzero deaths and duration. -/
def mmFix : ManualMatch :=
  { match_id := "MANUAL_001"
    summoner_name := "TestPlayer"
    champion_name := "Ahri"
    result := "WIN"
    kills := 10
    deaths := 3
    assists := 8
    cs := 180
    game_duration := 25
    queue_type := "tournament"
    date := "2024-01-01"
    notes := "" }

/-- A concrete manual match with zero deaths and zero duration. -/
def mmFixZero : ManualMatch :=
  { mmFix with match_id := "MANUAL_002", deaths := 0, game_duration := 0 }

/-- A concrete `MatchPerformance` with nonzero deaths. -/
def mpFix : MatchPerformance :=
  { match_id := "EUW_1"
    champion := "Ahri"
    role := "MIDDLE"
    kills := 7
    deaths := 2
    assists := 5
    win := true
    game_duration := 1500
    game_mode := "CLASSIC" }

/-- A concrete `MatchPerformance` with zero deaths. -/
def mpFixZero : MatchPerformance := { mpFix with deaths := 0 }

/-- A concrete participant record. -/
def pFix : Participant :=
  { puuid := "PUUID_A"
    championName := "Ahri"
    win := true
    teamPosition := "MIDDLE"
    kills := 7
    deaths := 2
    assists := 5
    totalMinionsKilled := 150
    neutralMinionsKilled := 10
    goldEarned := 12000
    totalDamageDealtToChampions := 20000 }

/-! ## C2: the KDA formula -/

/-- C2: for every match record with a nonzero death count, the derived
KDA equals `(kills + assists) / deaths` — for `ManualMatch.kda`, for
`MatchPerformance.kda`, and for the per-game KDA computed inside
`ChampionAnalyzer.analyze_matches`. -/
theorem scoutle_C2 (mm : ManualMatch) (mp : MatchPerformance)
    (k d a : Nat) :
    (mm.deaths ≠ 0 → mm.kda = (mm.kills + mm.assists) / mm.deaths) ∧
    (mp.deaths ≠ 0 →
      mp.kda = ((mp.kills : ℚ) + (mp.assists : ℚ)) / (mp.deaths : ℚ)) ∧
    (d ≠ 0 →
      ChampionAnalyzer.gameKda k d a = ((k : ℚ) + (a : ℚ)) / (d : ℚ)) := by
  refine ⟨fun h => ?_, fun h => ?_, fun h => ?_⟩
  · simp [ManualMatch.kda, h]
  · simp only [MatchPerformance.kda, if_neg h]
    push_cast
    ring
  · simp [ChampionAnalyzer.gameKda, Nat.pos_of_ne_zero h]

/-- Witness for C2 at concrete inputs. -/
theorem scoutle_C2_witness :
    mmFix.kda = (mmFix.kills + mmFix.assists) / mmFix.deaths ∧
    mpFix.kda = ((mpFix.kills : ℚ) + (mpFix.assists : ℚ)) / (mpFix.deaths : ℚ) ∧
    ChampionAnalyzer.gameKda 7 2 5 = ((7 : ℚ) + (5 : ℚ)) / (2 : ℚ) :=
  ⟨(scoutle_C2 mmFix mpFix 7 2 5).1 (by decide),
   (scoutle_C2 mmFix mpFix 7 2 5).2.1 (by decide),
   (scoutle_C2 mmFix mpFix 7 2 5).2.2 (by decide)⟩

/-! ## C10: zero guards of the derived statistics -/

/-- C10: every derived statistic is total under its explicit zero guard:
`cs_per_min` is `0` at zero duration and `cs / game_duration` otherwise,
both `kda` properties collapse to `kills + assists` at zero deaths, and
the per-minute CS, gold and damage rates appended by the
`analyze_matches` loop are `0` for a match of zero `gameDuration`. -/
theorem scoutle_C10 (mm : ManualMatch) (mp : MatchPerformance)
    (a : ChampionAnalyzer.ChampAcc) (m : MatchDto) (p : Participant) :
    (mm.game_duration = 0 → mm.cs_per_min = 0) ∧
    (mm.game_duration ≠ 0 → mm.cs_per_min = mm.cs / (mm.game_duration : ℚ)) ∧
    (mm.deaths = 0 → mm.kda = mm.kills + mm.assists) ∧
    (mp.deaths = 0 → mp.kda = (mp.kills : ℚ) + (mp.assists : ℚ)) ∧
    (m.info.gameDuration = 0 →
      (ChampionAnalyzer.processMatch a m p).cs_per_min = a.cs_per_min ++ [0] ∧
      (ChampionAnalyzer.processMatch a m p).gold_per_min =
        a.gold_per_min ++ [0] ∧
      (ChampionAnalyzer.processMatch a m p).damage_per_min =
        a.damage_per_min ++ [0]) := by
  refine ⟨fun h => ?_, fun h => ?_, fun h => ?_, fun h => ?_, fun h => ?_⟩
  · simp [ManualMatch.cs_per_min, h]
  · simp [ManualMatch.cs_per_min, h]
  · simp [ManualMatch.kda, h]
  · simp only [MatchPerformance.kda, if_pos h]
    push_cast
    ring
  · have hz : ∀ t : Nat, ChampionAnalyzer.ratePerMin t m.info.gameDuration = 0 := by
      intro t
      simp [ChampionAnalyzer.ratePerMin, h]
    exact ⟨by simp [ChampionAnalyzer.processMatch, hz],
      by simp [ChampionAnalyzer.processMatch, hz],
      by simp [ChampionAnalyzer.processMatch, hz]⟩

/-- Witness for C10 at concrete inputs. -/
theorem scoutle_C10_witness :
    mmFixZero.cs_per_min = 0 ∧
    mmFix.cs_per_min = mmFix.cs / (mmFix.game_duration : ℚ) ∧
    mmFixZero.kda = mmFixZero.kills + mmFixZero.assists ∧
    mpFixZero.kda = (mpFixZero.kills : ℚ) + (mpFixZero.assists : ℚ) ∧
    (ChampionAnalyzer.processMatch ChampionAnalyzer.emptyAcc
        ⟨⟨0, []⟩⟩ pFix).cs_per_min = ChampionAnalyzer.emptyAcc.cs_per_min ++ [0] :=
  ⟨(scoutle_C10 mmFixZero mpFixZero ChampionAnalyzer.emptyAcc ⟨⟨0, []⟩⟩ pFix).1 (by decide),
   (scoutle_C10 mmFix mpFixZero ChampionAnalyzer.emptyAcc ⟨⟨0, []⟩⟩ pFix).2.1 (by decide),
   (scoutle_C10 mmFixZero mpFixZero ChampionAnalyzer.emptyAcc ⟨⟨0, []⟩⟩ pFix).2.2.1 (by decide),
   (scoutle_C10 mmFixZero mpFixZero ChampionAnalyzer.emptyAcc ⟨⟨0, []⟩⟩ pFix).2.2.2.1 (by decide),
   ((scoutle_C10 mmFixZero mpFixZero ChampionAnalyzer.emptyAcc ⟨⟨0, []⟩⟩ pFix).2.2.2.2 rfl).1⟩

/-! ## C9: match-id uniqueness in the manual store -/

namespace ManualMatchStorage

/-- One call against the store (the mutating operations of
`ManualMatchStorage`). -/
inductive StorageOp where
  | add (m : ManualMatch)
  | remove (mid : String)
  | clear

/-- Apply one storage operation to the stored list. -/
def applyOp (ms : List ManualMatch) : StorageOp → List ManualMatch
  | .add m => (add_match ms m).2
  | .remove mid => (remove_match ms mid).2
  | .clear => clear_all_matches ms

/-- Run a sequence of storage operations. -/
def runOps (ms : List ManualMatch) (ops : List StorageOp) : List ManualMatch :=
  ops.foldl applyOp ms

theorem remove_match_snd_eq_filter (ms : List ManualMatch) (mid : String) :
    (remove_match ms mid).2 = ms.filter (fun m => m.match_id != mid) := by
  simp only [remove_match]
  split
  · rfl
  · next h =>
    refine (List.filter_eq_self.mpr ?_).symm
    by_contra hc
    push_neg at hc
    obtain ⟨x, hx, hpx⟩ := hc
    exact h (List.length_filter_lt_length_iff_exists.mpr ⟨x, hx, by simp [hpx]⟩)

theorem nodup_ids_applyOp (ms : List ManualMatch) (op : StorageOp)
    (h : (ms.map (·.match_id)).Nodup) :
    ((applyOp ms op).map (·.match_id)).Nodup := by
  cases op with
  | add m =>
    simp only [applyOp, add_match]
    split
    · exact h
    · next hany =>
      simp only [List.map_append, List.map_cons, List.map_nil]
      rw [List.nodup_append]
      refine ⟨h, List.nodup_singleton _, ?_⟩
      intro a ha hb
      simp only [List.mem_singleton] at hb
      subst hb
      obtain ⟨x, hx, hxid⟩ := List.mem_map.mp ha
      exact hany (List.any_eq_true.mpr ⟨x, hx, by simp [hxid]⟩)
  | remove mid =>
    simp only [applyOp, remove_match_snd_eq_filter]
    exact ((List.filter_sublist ms).map (·.match_id)).nodup h
  | clear =>
    simp [applyOp, clear_all_matches]

theorem nodup_ids_runOps (ops : List StorageOp) :
    ∀ ms : List ManualMatch, (ms.map (·.match_id)).Nodup →
      ((runOps ms ops).map (·.match_id)).Nodup := by
  induction ops with
  | nil => exact fun ms h => h
  | cons op rest ih =>
    intro ms h
    exact ih (applyOp ms op) (nodup_ids_applyOp ms op h)

end ManualMatchStorage

/-- C9: `match_id` uniqueness is preserved by every sequence of
`add_match`/`remove_match`/`clear_all_matches` calls; `add_match`
returns `False` and leaves the list unchanged exactly when the id is
already stored, else returns `True` after appending; `remove_match`
returns `True` exactly when the id was present, and its result drops
every match with the id (keeping the rest). -/
theorem scoutle_C9 (ms : List ManualMatch)
    (ops : List ManualMatchStorage.StorageOp) (m : ManualMatch)
    (mid : String) (h : (ms.map (·.match_id)).Nodup) :
    ((ManualMatchStorage.runOps ms ops).map (·.match_id)).Nodup ∧
    ((∃ x ∈ ms, x.match_id = m.match_id) →
      ManualMatchStorage.add_match ms m = (false, ms)) ∧
    ((¬ ∃ x ∈ ms, x.match_id = m.match_id) →
      ManualMatchStorage.add_match ms m = (true, ms ++ [m])) ∧
    ((ManualMatchStorage.remove_match ms mid).1 = true ↔
      ∃ x ∈ ms, x.match_id = mid) ∧
    (ManualMatchStorage.remove_match ms mid).2 =
      ms.filter (fun x => x.match_id != mid) := by
  refine ⟨ManualMatchStorage.nodup_ids_runOps ops ms h, ?_, ?_, ?_,
    ManualMatchStorage.remove_match_snd_eq_filter ms mid⟩
  · intro ⟨x, hx, hxid⟩
    simp only [ManualMatchStorage.add_match]
    rw [if_pos (List.any_eq_true.mpr ⟨x, hx, by simp [hxid]⟩)]
  · intro hno
    simp only [ManualMatchStorage.add_match]
    rw [if_neg]
    intro hany
    obtain ⟨x, hx, hxid⟩ := List.any_eq_true.mp hany
    exact hno ⟨x, hx, by simpa using hxid⟩
  · simp only [ManualMatchStorage.remove_match]
    constructor
    · intro ht
      split at ht
      · next hlt =>
        obtain ⟨x, hx, hpx⟩ := List.length_filter_lt_length_iff_exists.mp hlt
        exact ⟨x, hx, by simpa using hpx⟩
      · simp at ht
    · intro ⟨x, hx, hxid⟩
      rw [if_pos (List.length_filter_lt_length_iff_exists.mpr
        ⟨x, hx, by simp [hxid]⟩)]

/-- Witness for C9 at concrete inputs. -/
theorem scoutle_C9_witness :
    ((ManualMatchStorage.runOps [mmFix]
        [.add mmFixZero, .remove "MANUAL_001", .clear]).map
      (·.match_id)).Nodup ∧
    ManualMatchStorage.add_match [mmFix] mmFix = (false, [mmFix]) ∧
    (ManualMatchStorage.remove_match [mmFix] "MANUAL_001").1 = true :=
  ⟨(scoutle_C9 [mmFix] [.add mmFixZero, .remove "MANUAL_001", .clear]
      mmFix "MANUAL_001" (by decide)).1,
   (scoutle_C9 [mmFix] [] mmFix "MANUAL_001" (by decide)).2.1
      ⟨mmFix, List.mem_singleton.mpr rfl, rfl⟩,
   (scoutle_C9 [mmFix] [] mmFix "MANUAL_001" (by decide)).2.2.2.1.mpr
      ⟨mmFix, List.mem_singleton.mpr rfl, by decide⟩⟩

/-! ## C8: per-champion aggregation of the manual store -/

/-- The aggregate record for the C8 witness input. -/
def csdFix : ManualMatchStorage.ChampionStatsDict :=
  { champion_name := "AHRI"
    games_played := 1
    wins := 1
    losses := 0
    win_rate := 100
    kills := 10
    deaths := 3
    assists := 8
    kda := 6
    cs_per_min := 36 / 5 }

/-- C8: `get_champion_stats` returns `None` exactly when no stored match
matches both names case-insensitively; otherwise the record aggregates
exactly the matching list: `games_played` is its length, `wins` counts
result `"WIN"`, `losses` is `games_played - wins`, `win_rate` is
`wins / games_played * 100`, and `kda` is
`(total kills + total assists) / total deaths` when the total deaths are
positive. -/
theorem scoutle_C8 (ms : List ManualMatch) (sn cn : String)
    (flt : List ManualMatch)
    (hflt : flt = ms.filter (fun m =>
      strLower m.summoner_name == strLower sn &&
      strLower m.champion_name == strLower cn)) :
    (ManualMatchStorage.get_champion_stats ms sn cn = none ↔ flt = []) ∧
    ∀ d, ManualMatchStorage.get_champion_stats ms sn cn = some d →
      d.games_played = flt.length ∧
      d.wins = flt.countP (fun m => m.result == "WIN") ∧
      d.losses = d.games_played - d.wins ∧
      d.win_rate = (d.wins : ℚ) / (d.games_played : ℚ) * 100 ∧
      (0 < (flt.map (·.deaths)).sum →
        d.kda = ((flt.map (·.kills)).sum + (flt.map (·.assists)).sum) /
          (flt.map (·.deaths)).sum) := by
  subst hflt
  simp only [ManualMatchStorage.get_champion_stats]
  by_cases hem : ms.filter (fun m =>
      strLower m.summoner_name == strLower sn &&
      strLower m.champion_name == strLower cn) = []
  · rw [if_pos hem]
    exact ⟨by simp [hem], by intro d hd; cases hd⟩
  · rw [if_neg hem]
    have hpos : 0 < (ms.filter (fun m =>
        strLower m.summoner_name == strLower sn &&
        strLower m.champion_name == strLower cn)).length :=
      List.length_pos.mpr hem
    refine ⟨by simp [hem], ?_⟩
    intro d hd
    rw [Option.some.injEq] at hd
    subst hd
    refine ⟨rfl, rfl, rfl, ?_, ?_⟩
    · simp only [if_pos hpos]
    · intro hdsum
      simp only [if_pos hdsum]

theorem get_champion_stats_fix :
    ManualMatchStorage.get_champion_stats [mmFix] "testplayer" "AHRI" =
      some csdFix := by
  have hfl : [mmFix].filter (fun m =>
      strLower m.summoner_name == strLower "testplayer" &&
      strLower m.champion_name == strLower "AHRI") = [mmFix] := by decide
  have hcnt : [mmFix].countP (fun m => m.result == "WIN") = 1 := by decide
  simp only [ManualMatchStorage.get_champion_stats, hfl, hcnt]
  norm_num [mmFix, csdFix]

/-- Witness for C8 at a concrete store. -/
theorem scoutle_C8_witness :
    csdFix.games_played = [mmFix].length ∧
    csdFix.wins = [mmFix].countP (fun m => m.result == "WIN") ∧
    csdFix.kda = (([mmFix].map (·.kills)).sum + ([mmFix].map (·.assists)).sum) /
      ([mmFix].map (·.deaths)).sum :=
  ⟨((scoutle_C8 [mmFix] "testplayer" "AHRI" [mmFix] (by decide)).2 csdFix
      get_champion_stats_fix).1,
   ((scoutle_C8 [mmFix] "testplayer" "AHRI" [mmFix] (by decide)).2 csdFix
      get_champion_stats_fix).2.1,
   ((scoutle_C8 [mmFix] "testplayer" "AHRI" [mmFix] (by decide)).2 csdFix
      get_champion_stats_fix).2.2.2.2 (by norm_num [mmFix])⟩

/-! ## C7: the two-half trend heuristic -/

theorem listMean_nonneg (l : List ℚ) (h : ∀ x ∈ l, 0 ≤ x) : 0 ≤ listMean l :=
  div_nonneg (List.sum_nonneg h) (Nat.cast_nonneg l.length)

/-- C7: on a list of (nonnegative) per-game KDA values the trend
heuristic returns `"stable"` below 4 entries; otherwise it splits at
`len / 2` and returns `"improving"` exactly when the second-half mean
exceeds `1.1` times the first-half mean, `"declining"` exactly when it
is below `0.9` times the first-half mean, and `"stable"` otherwise. -/
theorem scoutle_C7 (kdas : List ℚ) (h : ∀ x ∈ kdas, 0 ≤ x) :
    (kdas.length < 4 →
      ChampionAnalyzer.calculate_performance_trend kdas = "stable") ∧
    (4 ≤ kdas.length →
      ((ChampionAnalyzer.calculate_performance_trend kdas = "improving" ↔
        listMean (kdas.drop (kdas.length / 2)) >
          listMean (kdas.take (kdas.length / 2)) * (11 / 10)) ∧
       (ChampionAnalyzer.calculate_performance_trend kdas = "declining" ↔
        listMean (kdas.drop (kdas.length / 2)) <
          listMean (kdas.take (kdas.length / 2)) * (9 / 10)) ∧
       (ChampionAnalyzer.calculate_performance_trend kdas = "stable" ↔
        (¬ listMean (kdas.drop (kdas.length / 2)) >
            listMean (kdas.take (kdas.length / 2)) * (11 / 10) ∧
         ¬ listMean (kdas.drop (kdas.length / 2)) <
            listMean (kdas.take (kdas.length / 2)) * (9 / 10))))) := by
  constructor
  · intro hlt
    simp [ChampionAnalyzer.calculate_performance_trend, hlt]
  · intro hge
    have hnlt : ¬ kdas.length < 4 := by omega
    have hfa : 0 ≤ listMean (kdas.take (kdas.length / 2)) :=
      listMean_nonneg _ (fun x hx => h x (List.take_subset _ _ hx))
    have hmono : listMean (kdas.take (kdas.length / 2)) * (9 / 10) ≤
        listMean (kdas.take (kdas.length / 2)) * (11 / 10) := by
      nlinarith
    simp only [ChampionAnalyzer.calculate_performance_trend, if_neg hnlt]
    by_cases h1 : listMean (kdas.drop (kdas.length / 2)) >
        listMean (kdas.take (kdas.length / 2)) * (11 / 10)
    · have h2 : ¬ listMean (kdas.drop (kdas.length / 2)) <
          listMean (kdas.take (kdas.length / 2)) * (9 / 10) := by
        intro hc
        exact absurd (lt_trans hc (lt_of_le_of_lt hmono h1)) (lt_irrefl _)
      rw [if_pos h1]
      refine ⟨by simp [h1], ?_, ?_⟩
      · constructor
        · intro he
          exact absurd he (by decide)
        · intro hc
          exact absurd hc h2
      · constructor
        · intro he
          exact absurd he (by decide)
        · intro hc
          exact absurd h1 (by simp [hc.1])
    · rw [if_neg h1]
      by_cases h2 : listMean (kdas.drop (kdas.length / 2)) <
          listMean (kdas.take (kdas.length / 2)) * (9 / 10)
      · rw [if_pos h2]
        refine ⟨?_, by simp [h2], ?_⟩
        · constructor
          · intro he
            exact absurd he (by decide)
          · intro hc
            exact absurd hc h1
        · constructor
          · intro he
            exact absurd he (by decide)
          · intro hc
            exact absurd h2 hc.2
      · rw [if_neg h2]
        refine ⟨?_, ?_, by simp [h1, h2]⟩
        · constructor
          · intro he
            exact absurd he (by decide)
          · intro hc
            exact absurd hc h1
        · constructor
          · intro he
            exact absurd he (by decide)
          · intro hc
            exact absurd hc h2

/-- Witness for C7 on a concrete improving KDA list. -/
theorem scoutle_C7_witness :
    ChampionAnalyzer.calculate_performance_trend [1, 1, 2, 2] = "improving" ∧
    ChampionAnalyzer.calculate_performance_trend [1, 1, 1] = "stable" :=
  ⟨((scoutle_C7 [1, 1, 2, 2] (by norm_num)).2 (by norm_num)).1.mpr (by
      norm_num [listMean]),
   (scoutle_C7 [1, 1, 1] (by norm_num)).1 (by norm_num)⟩

/-! ## C5 and C6: the cached API client -/

theorem lookupKey_dictInsert {α : Type} (c k : String) (v : α)
    (d : List (String × α)) :
    lookupKey c (dictInsert k v d) =
      if k = c then some v else lookupKey c d := by
  induction d with
  | nil => by_cases hkc : k = c <;> simp [dictInsert, lookupKey, hkc]
  | cons e tl ih =>
    obtain ⟨k', v'⟩ := e
    simp only [dictInsert]
    by_cases hk : k' = k
    · rw [if_pos hk]
      subst hk
      by_cases hc : k' = c
      · subst hc
        simp [lookupKey]
      · simp [lookupKey, hc]
    · rw [if_neg hk]
      simp only [lookupKey]
      by_cases hc : k' = c
      · subst hc
        rw [if_pos rfl, if_neg (fun h => hk h.symm), if_pos rfl]
      · rw [if_neg hc, if_neg hc, ih]

/-- C5: a second `make_request` with the same URL and params less than
`CACHE_DURATION` seconds after a successful first call answers from the
cache — the same payload, no sleep and no HTTP request, cache
unchanged — while after `CACHE_DURATION` or more a fresh HTTP request is
issued. -/
theorem scoutle_C5 {α : Type} (cache : RiotAPIClient.Cache α)
    (url params : String) (t1 t1' t2 t2' : ℚ) (d : α) (http2 : Option α)
    (hmiss : lookupKey (RiotAPIClient.mkCacheKey url params) cache = none) :
    (RiotAPIClient.make_request cache url params t1 t1' (some d)).value =
      some d ∧
    (t2 - t1' < CACHE_DURATION →
      (RiotAPIClient.make_request
          (RiotAPIClient.make_request cache url params t1 t1' (some d)).cache
          url params t2 t2' http2).value = some d ∧
      (RiotAPIClient.make_request
          (RiotAPIClient.make_request cache url params t1 t1' (some d)).cache
          url params t2 t2' http2).events = [] ∧
      (RiotAPIClient.make_request
          (RiotAPIClient.make_request cache url params t1 t1' (some d)).cache
          url params t2 t2' http2).cache =
        (RiotAPIClient.make_request cache url params t1 t1' (some d)).cache) ∧
    (¬ t2 - t1' < CACHE_DURATION →
      ((RiotAPIClient.make_request
          (RiotAPIClient.make_request cache url params t1 t1' (some d)).cache
          url params t2 t2' http2).events.countP
        RiotAPIClient.ReqEvent.isHttp) = 1) := by
  have h1 : RiotAPIClient.make_request cache url params t1 t1' (some d) =
      { value := some d
        cache := dictInsert (RiotAPIClient.mkCacheKey url params)
          (d, t1') cache
        events := [.sleep RATE_LIMIT_DELAY, .httpGet url params] } := by
    simp [RiotAPIClient.make_request, hmiss]
  have h2 : lookupKey (RiotAPIClient.mkCacheKey url params)
      (dictInsert (RiotAPIClient.mkCacheKey url params) (d, t1') cache) =
      some (d, t1') := by
    rw [lookupKey_dictInsert]
    simp
  refine ⟨by rw [h1], ?_, ?_⟩
  · intro hlt
    rw [h1]
    simp only [RiotAPIClient.make_request, h2]
    rw [if_pos hlt]
    exact ⟨rfl, rfl, rfl⟩
  · intro hge
    rw [h1]
    simp only [RiotAPIClient.make_request, h2]
    rw [if_neg hge]
    cases http2 <;>
      simp [List.countP_cons, RiotAPIClient.ReqEvent.isHttp]

/-- Witness for C5 on a concrete empty cache. -/
theorem scoutle_C5_witness :
    (RiotAPIClient.make_request ([] : RiotAPIClient.Cache Nat)
      "https://euw1.api.riotgames.com/x" "None" 0 1 (some 42)).value =
      some 42 ∧
    (RiotAPIClient.make_request
      (RiotAPIClient.make_request ([] : RiotAPIClient.Cache Nat)
        "https://euw1.api.riotgames.com/x" "None" 0 1 (some 42)).cache
      "https://euw1.api.riotgames.com/x" "None" 100 101 (some 7)).value =
      some 42 :=
  ⟨(scoutle_C5 [] "https://euw1.api.riotgames.com/x" "None" 0 1 100 101 42
      (some 7) rfl).1,
   ((scoutle_C5 [] "https://euw1.api.riotgames.com/x" "None" 0 1 100 101 42
      (some 7) rfl).2.1 (by norm_num [CACHE_DURATION])).1⟩

/-- C6: one `make_request` call issues at most one HTTP request, always
preceded by exactly one fixed `RATE_LIMIT_DELAY` sleep; a failing
request yields `None` and leaves the cache unchanged; and
`get_ranked_stats` / `get_match_history` map an underlying `None` to an
empty list. -/
theorem scoutle_C6 {α : Type} (cache : RiotAPIClient.Cache α)
    (url params : String) (t t' : ℚ) (http : Option α)
    (cl : RiotAPIClient.Cache (List α)) (base sid : String)
    (ch : RiotAPIClient.Cache (List String)) (puuid : String) (count : Nat) :
    ((RiotAPIClient.make_request cache url params t t' http).events.countP
      RiotAPIClient.ReqEvent.isHttp ≤ 1) ∧
    ((RiotAPIClient.make_request cache url params t t' http).events ≠ [] →
      (RiotAPIClient.make_request cache url params t t' http).events =
        [.sleep RATE_LIMIT_DELAY, .httpGet url params]) ∧
    (http = none →
      (RiotAPIClient.make_request cache url params t t' http).events ≠ [] →
      (RiotAPIClient.make_request cache url params t t' http).value = none ∧
      (RiotAPIClient.make_request cache url params t t' http).cache = cache) ∧
    ((RiotAPIClient.make_request cl (RiotAPIClient.rankedUrl base sid) "None"
        t t' none).value = none →
      (RiotAPIClient.get_ranked_stats cl base sid t t' none).1 = []) ∧
    ((RiotAPIClient.make_request ch
        (RiotAPIClient.matchHistoryUrl base puuid count)
        (RiotAPIClient.matchHistoryParams count) t t' none).value = none →
      (RiotAPIClient.get_match_history ch base puuid count t t' none).1 =
        []) := by
  refine ⟨?_, ?_, ?_, ?_, ?_⟩
  · simp only [RiotAPIClient.make_request]
    rcases hl : lookupKey (RiotAPIClient.mkCacheKey url params) cache with
      _ | ⟨d, ts⟩
    · cases http <;> simp [List.countP_cons, RiotAPIClient.ReqEvent.isHttp]
    · by_cases hc : t - ts < CACHE_DURATION
      · simp [hc]
      · cases http <;>
          simp [hc, List.countP_cons, RiotAPIClient.ReqEvent.isHttp]
  · intro hne
    rcases hl : lookupKey (RiotAPIClient.mkCacheKey url params) cache with
      _ | ⟨d, ts⟩ <;>
      simp only [RiotAPIClient.make_request, hl] at hne ⊢
    · cases http <;> rfl
    · by_cases hc : t - ts < CACHE_DURATION
      · rw [if_pos hc] at hne
        exact absurd rfl hne
      · rw [if_neg hc] at hne ⊢
        cases http <;> rfl
  · intro hhttp hne
    subst hhttp
    rcases hl : lookupKey (RiotAPIClient.mkCacheKey url params) cache with
      _ | ⟨d, ts⟩ <;>
      simp only [RiotAPIClient.make_request, hl] at hne ⊢
    · trivial
    · by_cases hc : t - ts < CACHE_DURATION
      · rw [if_pos hc] at hne
        exact absurd rfl hne
      · rw [if_neg hc] at hne ⊢
        trivial
  · intro hval
    simp only [RiotAPIClient.get_ranked_stats, hval]
  · intro hval
    simp only [RiotAPIClient.get_match_history, hval]

/-- Witness for C6 on an empty cache and a failing request. -/
theorem scoutle_C6_witness :
    ((RiotAPIClient.make_request ([] : RiotAPIClient.Cache Nat) "u" "None"
        0 1 none).events ≠ [] →
      (RiotAPIClient.make_request ([] : RiotAPIClient.Cache Nat) "u" "None"
        0 1 none).events =
        [.sleep RATE_LIMIT_DELAY, .httpGet "u" "None"]) ∧
    (RiotAPIClient.get_ranked_stats ([] : RiotAPIClient.Cache (List Nat))
      "b" "sid" 0 1 none).1 = [] ∧
    (RiotAPIClient.get_match_history ([] : RiotAPIClient.Cache (List String))
      "b" "p" 20 0 1 none).1 = [] :=
  ⟨(scoutle_C6 ([] : RiotAPIClient.Cache Nat) "u" "None" 0 1 none
      ([] : RiotAPIClient.Cache (List Nat)) "b" "sid"
      ([] : RiotAPIClient.Cache (List String)) "p" 20).2.1,
   (scoutle_C6 ([] : RiotAPIClient.Cache Nat) "u" "None" 0 1 none
      ([] : RiotAPIClient.Cache (List Nat)) "b" "sid"
      ([] : RiotAPIClient.Cache (List String)) "p" 20).2.2.2.1 rfl,
   (scoutle_C6 ([] : RiotAPIClient.Cache Nat) "u" "None" 0 1 none
      ([] : RiotAPIClient.Cache (List Nat)) "b" "sid"
      ([] : RiotAPIClient.Cache (List String)) "p" 20).2.2.2.2 rfl⟩

/-! ## C1 and C3: the champion analyzer loop invariant -/

namespace ChampionAnalyzer

/-- Whether the code's participant for `puuid` in `m` won. -/
def winOf (puuid : String) (m : MatchDto) : Bool :=
  match extract_player_data m puuid with
  | some p => p.win
  | none => false

/-- Whether `m` contributes to champion `c`: the extracted participant
exists and played `c`. -/
def matchChamp (puuid c : String) (m : MatchDto) : Bool :=
  match extract_player_data m puuid with
  | some p => p.championName == c
  | none => false

/-- The matches that `analyze_matches` groups under champion `c`. -/
def relevantFor (puuid c : String) (ms : List MatchDto) : List MatchDto :=
  ms.filter (matchChamp puuid c)

/-- The games list stored for champion `c` (empty when absent). -/
def gamesAt (am : List (String × ChampAcc)) (c : String) : List MatchDto :=
  match lookupKey c am with
  | some a => a.games
  | none => []

/-- The win counter stored for champion `c` (zero when absent). -/
def winsAt (am : List (String × ChampAcc)) (c : String) : Nat :=
  match lookupKey c am with
  | some a => a.wins
  | none => 0

/-- The loss counter stored for champion `c` (zero when absent). -/
def lossesAt (am : List (String × ChampAcc)) (c : String) : Nat :=
  match lookupKey c am with
  | some a => a.losses
  | none => 0

/-- Whether champion `c` has an entry. -/
def hasChamp (am : List (String × ChampAcc)) (c : String) : Bool :=
  (lookupKey c am).isSome

theorem lookupKey_updateAccMap (k c : String) (m : MatchDto)
    (p : Participant) (am : List (String × ChampAcc)) :
    lookupKey c (updateAccMap k m p am) =
      if k = c then some (processMatch ((lookupKey c am).getD emptyAcc) m p)
      else lookupKey c am := by
  induction am with
  | nil =>
    by_cases hkc : k = c <;> simp [updateAccMap, lookupKey, hkc]
  | cons e tl ih =>
    obtain ⟨k', a⟩ := e
    simp only [updateAccMap]
    by_cases hk : k' = k
    · rw [if_pos hk]
      subst hk
      by_cases hc : k' = c
      · subst hc
        simp [lookupKey]
      · simp [lookupKey, hc]
    · rw [if_neg hk]
      simp only [lookupKey]
      by_cases hc : k' = c
      · subst hc
        rw [if_pos rfl, if_neg (fun h => hk h.symm), if_pos rfl]
      · rw [if_neg hc, if_neg hc, ih]

theorem accStep_proj (puuid c : String) (am : List (String × ChampAcc))
    (m : MatchDto) :
    gamesAt (accStep puuid am m) c =
      gamesAt am c ++ (if matchChamp puuid c m then [m] else []) ∧
    winsAt (accStep puuid am m) c =
      winsAt am c + (if matchChamp puuid c m && winOf puuid m then 1 else 0) ∧
    lossesAt (accStep puuid am m) c =
      lossesAt am c +
        (if matchChamp puuid c m && !(winOf puuid m) then 1 else 0) ∧
    hasChamp (accStep puuid am m) c = (hasChamp am c || matchChamp puuid c m) := by
  rcases hx : extract_player_data m puuid with _ | p
  · simp [accStep, hx, matchChamp, winOf]
  · simp only [accStep, hx, matchChamp, winOf]
    by_cases hpc : p.championName = c
    · have hbeq : (p.championName == c) = true := beq_iff_eq.mpr hpc
      simp only [hbeq, if_pos]
      rw [hpc] at *
      simp only [gamesAt, winsAt, lossesAt, hasChamp,
        lookupKey_updateAccMap, if_pos rfl]
      rcases hl : lookupKey c am with _ | a
      · cases hw : p.win <;>
          simp [processMatch, emptyAcc, hw]
      · cases hw : p.win <;>
          simp [processMatch, hw]
    · have hbeq : (p.championName == c) = false := by
        simp [hpc]
      simp only [hbeq, Bool.false_and, if_neg, cond_false]
      simp only [gamesAt, winsAt, lossesAt, hasChamp,
        lookupKey_updateAccMap, if_neg hpc]
      simp

theorem countP_add_countP_not {α : Type} (l : List α) (p : α → Bool) :
    l.countP p + l.countP (fun a => !p a) = l.length := by
  induction l with
  | nil => simp
  | cons x xs ih =>
    by_cases h : p x <;> simp [List.countP_cons, h] <;> omega

theorem accLoop_proj (puuid c : String) (ms : List MatchDto) :
    ∀ am : List (String × ChampAcc),
    gamesAt (ms.foldl (accStep puuid) am) c =
      gamesAt am c ++ relevantFor puuid c ms ∧
    winsAt (ms.foldl (accStep puuid) am) c =
      winsAt am c + (relevantFor puuid c ms).countP (winOf puuid) ∧
    lossesAt (ms.foldl (accStep puuid) am) c =
      lossesAt am c +
        (relevantFor puuid c ms).countP (fun m => !(winOf puuid m)) ∧
    hasChamp (ms.foldl (accStep puuid) am) c =
      (hasChamp am c || !(relevantFor puuid c ms).isEmpty) := by
  induction ms with
  | nil => intro am; simp [relevantFor]
  | cons m tl ih =>
    intro am
    simp only [List.foldl_cons]
    obtain ⟨ihg, ihw, ihl, ihh⟩ := ih (accStep puuid am m)
    obtain ⟨sg, sw, sl, sh⟩ := accStep_proj puuid c am m
    refine ⟨?_, ?_, ?_, ?_⟩
    · rw [ihg, sg]
      simp only [relevantFor, List.filter_cons]
      by_cases hmc : matchChamp puuid c m <;> simp [hmc]
    · rw [ihw, sw]
      simp only [relevantFor, List.filter_cons]
      by_cases hmc : matchChamp puuid c m
      · by_cases hw : winOf puuid m <;>
          simp [hmc, hw, List.countP_cons] <;> omega
      · simp [hmc]
    · rw [ihl, sl]
      simp only [relevantFor, List.filter_cons]
      by_cases hmc : matchChamp puuid c m
      · by_cases hw : winOf puuid m <;>
          simp [hmc, hw, List.countP_cons] <;> omega
      · simp [hmc]
    · rw [ihh, sh]
      simp only [relevantFor, List.filter_cons]
      by_cases hmc : matchChamp puuid c m <;> simp [hmc]

theorem mem_updateAccMap (k : String) (m : MatchDto) (p : Participant) :
    ∀ (am : List (String × ChampAcc)) (e : String × ChampAcc),
      e ∈ updateAccMap k m p am →
      e ∈ am ∨ ∃ a, e = (k, processMatch a m p) := by
  intro am
  induction am with
  | nil =>
    intro e he
    simp only [updateAccMap, List.mem_singleton] at he
    exact Or.inr ⟨emptyAcc, he⟩
  | cons hd tl ih =>
    intro e he
    obtain ⟨k', a⟩ := hd
    simp only [updateAccMap] at he
    by_cases hk : k' = k
    · rw [if_pos hk] at he
      rcases List.mem_cons.mp he with he | he
      · exact Or.inr ⟨a, by rw [he, hk]⟩
      · exact Or.inl (List.mem_cons_of_mem _ he)
    · rw [if_neg hk] at he
      rcases List.mem_cons.mp he with he | he
      · exact Or.inl (by rw [he]; exact List.mem_cons_self _ _)
      · rcases ih e he with h | h
        · exact Or.inl (List.mem_cons_of_mem _ h)
        · exact Or.inr h

theorem games_ne_nil_foldl (puuid : String) (ms : List MatchDto) :
    ∀ am : List (String × ChampAcc),
      (∀ e ∈ am, e.2.games ≠ []) →
      ∀ e ∈ ms.foldl (accStep puuid) am, e.2.games ≠ [] := by
  induction ms with
  | nil => intro am h; simpa using h
  | cons m tl ih =>
    intro am h
    simp only [List.foldl_cons]
    refine ih (accStep puuid am m) ?_
    intro e he
    rcases hx : extract_player_data m puuid with _ | p <;>
      rw [accStep, hx] at he
    · exact h e he
    · rcases mem_updateAccMap _ m p am e he with hmem | ⟨a, rfl⟩
      · exact h e hmem
      · simp [processMatch]

theorem lookupKey_analyze_aux (c : String) :
    ∀ l : List (String × ChampAcc),
      (∀ e ∈ l, e.2.games ≠ []) →
      lookupKey c (l.filterMap (fun ca =>
        if ca.2.games = [] then none else some (ca.1, toStats ca.1 ca.2))) =
        (lookupKey c l).map (fun a => toStats c a) := by
  intro l
  induction l with
  | nil => intro _; rfl
  | cons e tl ih =>
    intro h
    obtain ⟨k, a⟩ := e
    have hne : a.games ≠ [] := h (k, a) (List.mem_cons_self _ _)
    simp only [List.filterMap_cons, if_neg hne]
    simp only [lookupKey]
    by_cases hk : k = c
    · subst hk
      simp
    · rw [if_neg hk, if_neg hk, ih (fun e he => h e (List.mem_cons_of_mem _ he))]

theorem lookupKey_analyze (ms : List MatchDto) (puuid c : String) :
    lookupKey c (analyze_matches ms puuid) =
      (lookupKey c (buildAccMap ms puuid)).map (fun a => toStats c a) :=
  lookupKey_analyze_aux c (buildAccMap ms puuid)
    (games_ne_nil_foldl puuid ms [] (by simp))

end ChampionAnalyzer

theorem countP_congr_mem {α : Type} (l : List α) (p q : α → Bool)
    (h : ∀ x ∈ l, p x = q x) : l.countP p = l.countP q := by
  induction l with
  | nil => rfl
  | cons x xs ih =>
    have hx := h x (List.mem_cons_self _ _)
    simp [List.countP_cons, hx,
      ih (fun y hy => h y (List.mem_cons_of_mem _ hy))]

namespace ChampionAnalyzer

theorem buildAccMap_proj (puuid c : String) (ms : List MatchDto) :
    gamesAt (buildAccMap ms puuid) c = relevantFor puuid c ms ∧
    winsAt (buildAccMap ms puuid) c =
      (relevantFor puuid c ms).countP (winOf puuid) ∧
    lossesAt (buildAccMap ms puuid) c =
      (relevantFor puuid c ms).countP (fun m => !(winOf puuid m)) ∧
    hasChamp (buildAccMap ms puuid) c =
      !(relevantFor puuid c ms).isEmpty := by
  obtain ⟨hg, hw, hl, hh⟩ := accLoop_proj puuid c ms []
  have e1 : gamesAt ([] : List (String × ChampAcc)) c = [] := rfl
  have e2 : winsAt ([] : List (String × ChampAcc)) c = 0 := rfl
  have e3 : lossesAt ([] : List (String × ChampAcc)) c = 0 := rfl
  have e4 : hasChamp ([] : List (String × ChampAcc)) c = false := rfl
  rw [e1] at hg
  rw [e2] at hw
  rw [e3] at hl
  rw [e4] at hh
  simp only [List.nil_append, Nat.zero_add, Bool.false_or] at hg hw hl hh
  exact ⟨hg, hw, hl, hh⟩

end ChampionAnalyzer

/-- C1: `analyze_matches` has a record for champion `c` exactly when
some input match's extracted participant (the one with the requested
puuid) played `c`; that record counts those matches as `games_played`,
their wins and losses by the participant's `win` flag, and sets
`win_rate = wins / games_played * 100`.  The last two conjuncts identify
the extraction with "a participant with that puuid appears". -/
theorem scoutle_C1 (ms : List MatchDto) (puuid c : String)
    (s : ChampionAnalyzer.ChampionStats) :
    ((lookupKey c (ChampionAnalyzer.analyze_matches ms puuid)).isSome ↔
      ChampionAnalyzer.relevantFor puuid c ms ≠ []) ∧
    (lookupKey c (ChampionAnalyzer.analyze_matches ms puuid) = some s →
      s.games_played = (ChampionAnalyzer.relevantFor puuid c ms).length ∧
      s.wins = (ChampionAnalyzer.relevantFor puuid c ms).countP
        (ChampionAnalyzer.winOf puuid) ∧
      s.losses = (ChampionAnalyzer.relevantFor puuid c ms).countP
        (fun m => !(ChampionAnalyzer.winOf puuid m)) ∧
      s.win_rate = (s.wins : ℚ) / (s.games_played : ℚ) * 100) ∧
    (∀ m : MatchDto,
      (ChampionAnalyzer.extract_player_data m puuid).isSome ↔
        ∃ p ∈ m.info.participants, p.puuid = puuid) ∧
    (∀ m : MatchDto,
      ChampionAnalyzer.matchChamp puuid c m = true ↔
        ∃ p, ChampionAnalyzer.extract_player_data m puuid = some p ∧
          p.championName = c) := by
  obtain ⟨bg, bw, bl, bh⟩ := ChampionAnalyzer.buildAccMap_proj puuid c ms
  refine ⟨?_, ?_, ?_, ?_⟩
  · rw [ChampionAnalyzer.lookupKey_analyze, Option.isSome_map']
    have : (lookupKey c (ChampionAnalyzer.buildAccMap ms puuid)).isSome =
        !(ChampionAnalyzer.relevantFor puuid c ms).isEmpty := bh
    rw [this]
    simp [List.isEmpty_iff]
  · intro hsome
    rw [ChampionAnalyzer.lookupKey_analyze] at hsome
    rcases hopt : lookupKey c (ChampionAnalyzer.buildAccMap ms puuid) with
      _ | a
    · rw [hopt] at hsome
      cases hsome
    · rw [hopt] at hsome
      simp only [Option.map_some', Option.some.injEq] at hsome
      subst hsome
      have hga : a.games = ChampionAnalyzer.relevantFor puuid c ms := by
        rw [← bg]
        simp [ChampionAnalyzer.gamesAt, hopt]
      have hwa : a.wins = (ChampionAnalyzer.relevantFor puuid c ms).countP
          (ChampionAnalyzer.winOf puuid) := by
        rw [← bw]
        simp [ChampionAnalyzer.winsAt, hopt]
      have hla : a.losses = (ChampionAnalyzer.relevantFor puuid c ms).countP
          (fun m => !(ChampionAnalyzer.winOf puuid m)) := by
        rw [← bl]
        simp [ChampionAnalyzer.lossesAt, hopt]
      have hne : ChampionAnalyzer.relevantFor puuid c ms ≠ [] := by
        have hsm : ChampionAnalyzer.hasChamp
            (ChampionAnalyzer.buildAccMap ms puuid) c = true := by
          simp [ChampionAnalyzer.hasChamp, hopt]
        rw [bh] at hsm
        simpa [List.isEmpty_iff] using hsm
      have hpos : 0 < a.games.length := by
        rw [hga]
        exact List.length_pos.mpr hne
      refine ⟨?_, ?_, ?_, ?_⟩
      · simp [ChampionAnalyzer.toStats, hga]
      · simp [ChampionAnalyzer.toStats, hwa]
      · simp [ChampionAnalyzer.toStats, hla]
      · simp [ChampionAnalyzer.toStats, if_pos hpos]
  · intro m
    simp [ChampionAnalyzer.extract_player_data, List.find?_isSome]
  · intro m
    rcases hx : ChampionAnalyzer.extract_player_data m puuid with _ | p <;>
      simp [ChampionAnalyzer.matchChamp, hx]

/-- A concrete match payload containing `pFix`. -/
def matchFix : MatchDto := ⟨⟨1500, [pFix]⟩⟩

/-- The analyzer output for champion `"Ahri"` on `[matchFix]`. -/
def analyzedFix : ChampionAnalyzer.ChampionStats :=
  ChampionAnalyzer.toStats "Ahri"
    (ChampionAnalyzer.processMatch ChampionAnalyzer.emptyAcc matchFix pFix)

/-- Witness for C1 on a single-match input. -/
theorem scoutle_C1_witness :
    analyzedFix.games_played =
      (ChampionAnalyzer.relevantFor "PUUID_A" "Ahri" [matchFix]).length ∧
    analyzedFix.wins =
      (ChampionAnalyzer.relevantFor "PUUID_A" "Ahri" [matchFix]).countP
        (ChampionAnalyzer.winOf "PUUID_A") ∧
    ((lookupKey "Ahri"
        (ChampionAnalyzer.analyze_matches [matchFix] "PUUID_A")).isSome ↔
      ChampionAnalyzer.relevantFor "PUUID_A" "Ahri" [matchFix] ≠ []) :=
  ⟨((scoutle_C1 [matchFix] "PUUID_A" "Ahri" analyzedFix).2.1 rfl).1,
   ((scoutle_C1 [matchFix] "PUUID_A" "Ahri" analyzedFix).2.1 rfl).2.1,
   (scoutle_C1 [matchFix] "PUUID_A" "Ahri" analyzedFix).1⟩

/-! ## C3: games = wins + losses -/

/-- C3 (amended): the analyzer records and the manual-store aggregates
satisfy `games = wins + losses` unconditionally; the tournament stats
satisfy `total_tournament_games = tournament_wins + tournament_losses`
provided every input game's `result` is `"WIN"` or `"LOSS"` (the value
range the `TournamentGame` dataclass documents). -/
theorem scoutle_C3 (ms : List MatchDto) (puuid c : String)
    (s : ChampionAnalyzer.ChampionStats) (mms : List ManualMatch)
    (sn cn : String) (d : ManualMatchStorage.ChampionStatsDict)
    (tg : List TournamentGame) (codes : List String) :
    (lookupKey c (ChampionAnalyzer.analyze_matches ms puuid) = some s →
      s.games_played = s.wins + s.losses) ∧
    (ManualMatchStorage.get_champion_stats mms sn cn = some d →
      d.games_played = d.wins + d.losses) ∧
    ((∀ g ∈ tg, g.result = "WIN" ∨ g.result = "LOSS") →
      (TournamentScraper.calculate_tournament_stats tg
          codes).total_tournament_games =
        (TournamentScraper.calculate_tournament_stats tg
            codes).tournament_wins +
          (TournamentScraper.calculate_tournament_stats tg
              codes).tournament_losses) := by
  obtain ⟨bg, bw, bl, _⟩ := ChampionAnalyzer.buildAccMap_proj puuid c ms
  refine ⟨?_, ?_, ?_⟩
  · intro hsome
    rw [ChampionAnalyzer.lookupKey_analyze] at hsome
    rcases hopt : lookupKey c (ChampionAnalyzer.buildAccMap ms puuid) with
      _ | a
    · rw [hopt] at hsome
      cases hsome
    · rw [hopt] at hsome
      simp only [Option.map_some', Option.some.injEq] at hsome
      subst hsome
      have hga : a.games = ChampionAnalyzer.relevantFor puuid c ms := by
        rw [← bg]
        simp [ChampionAnalyzer.gamesAt, hopt]
      have hwa : a.wins = (ChampionAnalyzer.relevantFor puuid c ms).countP
          (ChampionAnalyzer.winOf puuid) := by
        rw [← bw]
        simp [ChampionAnalyzer.winsAt, hopt]
      have hla : a.losses = (ChampionAnalyzer.relevantFor puuid c ms).countP
          (fun m => !(ChampionAnalyzer.winOf puuid m)) := by
        rw [← bl]
        simp [ChampionAnalyzer.lossesAt, hopt]
      have hcnt := ChampionAnalyzer.countP_add_countP_not
        (ChampionAnalyzer.relevantFor puuid c ms)
        (ChampionAnalyzer.winOf puuid)
      simp only [ChampionAnalyzer.toStats]
      rw [hga, hwa, hla, hcnt]
  · intro hd
    simp only [ManualMatchStorage.get_champion_stats] at hd
    by_cases hem : mms.filter (fun m =>
        strLower m.summoner_name == strLower sn &&
        strLower m.champion_name == strLower cn) = []
    · rw [if_pos hem] at hd
      cases hd
    · rw [if_neg hem] at hd
      rw [Option.some.injEq] at hd
      subst hd
      have hle := List.countP_le_length
        (p := fun m : ManualMatch => m.result == "WIN") (l := mms.filter
          (fun m => strLower m.summoner_name == strLower sn &&
            strLower m.champion_name == strLower cn))
      dsimp only
      omega
  · intro hall
    by_cases htg : tg = []
    · subst htg
      simp [TournamentScraper.calculate_tournament_stats,
        TournamentScraper.create_empty_tournament_stats]
    · simp only [TournamentScraper.calculate_tournament_stats, if_neg htg]
      have hcong : tg.countP (fun g => g.result == "LOSS") =
          tg.countP (fun g => !(g.result == "WIN")) := by
        refine countP_congr_mem tg _ _ (fun g hg => ?_)
        rcases hall g hg with hr | hr <;> rw [hr] <;> rfl
      have hcnt := ChampionAnalyzer.countP_add_countP_not tg
        (fun g => g.result == "WIN")
      rw [hcong, hcnt]

/-- A tournament game as `_find_custom_games` actually constructs it:
`result` is `"UNKNOWN"`. -/
def tgUnknown : TournamentGame :=
  { game_id := "custom_0_2024-01-01"
    game_type := "CUSTOM"
    tournament_code := "CUSTOM_2024-01-01"
    date := "2024-01-01"
    duration := 0
    result := "UNKNOWN"
    champion := "Unknown"
    role := "Unknown"
    kills := 0
    deaths := 0
    assists := 0
    kda := 0
    cs := 0
    gold := 0
    damage := 0
    vision_score := 0
    team_composition := []
    enemy_composition := [] }

/-- A tournament game whose result is a regular win. -/
def tgWin : TournamentGame :=
  { tgUnknown with
    game_id := "official_lec"
    game_type := "OFFICIAL"
    result := "WIN"
    champion := "Ahri" }

/-- Counterexample to C3 as stated: on the game the scraper itself
builds (`result = "UNKNOWN"`), the tournament total is `1` while
wins and losses are both `0`. -/
theorem scoutle_C3_counterexample :
    (TournamentScraper.calculate_tournament_stats [tgUnknown]
        []).total_tournament_games ≠
      (TournamentScraper.calculate_tournament_stats [tgUnknown]
          []).tournament_wins +
        (TournamentScraper.calculate_tournament_stats [tgUnknown]
            []).tournament_losses := by
  decide

/-- Witness for the amended C3 at concrete inputs. -/
theorem scoutle_C3_witness :
    analyzedFix.games_played = analyzedFix.wins + analyzedFix.losses ∧
    csdFix.games_played = csdFix.wins + csdFix.losses ∧
    (TournamentScraper.calculate_tournament_stats [tgWin]
        []).total_tournament_games =
      (TournamentScraper.calculate_tournament_stats [tgWin]
          []).tournament_wins +
        (TournamentScraper.calculate_tournament_stats [tgWin]
            []).tournament_losses :=
  ⟨(scoutle_C3 [matchFix] "PUUID_A" "Ahri" analyzedFix [mmFix] "testplayer"
      "AHRI" csdFix [tgWin] []).1 rfl,
   (scoutle_C3 [matchFix] "PUUID_A" "Ahri" analyzedFix [mmFix] "testplayer"
      "AHRI" csdFix [tgWin] []).2.1 get_champion_stats_fix,
   (scoutle_C3 [matchFix] "PUUID_A" "Ahri" analyzedFix [mmFix] "testplayer"
      "AHRI" csdFix [tgWin] []).2.2 (by decide)⟩

/-! ## C4: the hybrid combiner -/

theorem mem_dictInsert {α : Type} (k : String) (v : α) :
    ∀ (d : List (String × α)) (e : String × α),
      e ∈ dictInsert k v d → e ∈ d ∨ e = (k, v) := by
  intro d
  induction d with
  | nil =>
    intro e he
    simp only [dictInsert, List.mem_singleton] at he
    exact Or.inr he
  | cons hd tl ih =>
    intro e he
    obtain ⟨k', v'⟩ := hd
    simp only [dictInsert] at he
    by_cases hk : k' = k
    · rw [if_pos hk] at he
      rcases List.mem_cons.mp he with he | he
      · exact Or.inr (by rw [he, hk])
      · exact Or.inl (List.mem_cons_of_mem _ he)
    · rw [if_neg hk] at he
      rcases List.mem_cons.mp he with he | he
      · exact Or.inl (by rw [he]; exact List.mem_cons_self _ _)
      · rcases ih e he with h | h
        · exact Or.inl (List.mem_cons_of_mem _ h)
        · exact Or.inr h

theorem mem_keys_dictInsert {α : Type} (c k : String) (v : α) :
    ∀ d : List (String × α),
      (c ∈ (dictInsert k v d).map (·.1) ↔ c ∈ d.map (·.1) ∨ c = k) := by
  intro d
  induction d with
  | nil => simp [dictInsert]
  | cons hd tl ih =>
    obtain ⟨k', v'⟩ := hd
    simp only [dictInsert]
    by_cases hk : k' = k
    · rw [if_pos hk]
      subst hk
      simp only [List.map_cons, List.mem_cons]
      tauto
    · rw [if_neg hk]
      simp only [List.map_cons, List.mem_cons, ih]
      tauto

theorem keys_nodup_dictInsert {α : Type} (k : String) (v : α) :
    ∀ d : List (String × α), (d.map (·.1)).Nodup →
      ((dictInsert k v d).map (·.1)).Nodup := by
  intro d
  induction d with
  | nil => simp [dictInsert]
  | cons hd tl ih =>
    intro h
    obtain ⟨k', v'⟩ := hd
    simp only [List.map_cons, List.nodup_cons] at h
    simp only [dictInsert]
    by_cases hk : k' = k
    · rw [if_pos hk]
      simp only [List.map_cons, List.nodup_cons]
      exact h
    · rw [if_neg hk]
      simp only [List.map_cons, List.nodup_cons]
      refine ⟨?_, ih h.2⟩
      intro hc
      rcases (mem_keys_dictInsert k' k v tl).mp hc with hc | hc
      · exact h.1 hc
      · exact hk hc

theorem lookupKey_isSome_iff {α : Type} (c : String) :
    ∀ d : List (String × α), ((lookupKey c d).isSome ↔ c ∈ d.map (·.1)) := by
  intro d
  induction d with
  | nil => simp [lookupKey]
  | cons hd tl ih =>
    obtain ⟨k', v'⟩ := hd
    simp only [lookupKey, List.map_cons, List.mem_cons]
    by_cases hk : k' = c
    · rw [if_pos hk]
      simp [hk]
    · rw [if_neg hk]
      rw [ih]
      constructor
      · exact Or.inr
      · rintro (h | h)
        · exact absurd h.symm hk
        · exact h

theorem countP_key_of_nodup {α : Type} (c : String) :
    ∀ d : List (String × α), (d.map (·.1)).Nodup →
      d.countP (fun e => e.1 == c) = if c ∈ d.map (·.1) then 1 else 0 := by
  intro d
  induction d with
  | nil => simp
  | cons hd tl ih =>
    intro h
    obtain ⟨k', v'⟩ := hd
    simp only [List.map_cons, List.nodup_cons] at h
    simp only [List.countP_cons, List.map_cons, List.mem_cons]
    by_cases hk : k' = c
    · subst hk
      have hnotin : k' ∉ tl.map (·.1) := h.1
      rw [ih h.2, if_neg hnotin, if_pos (Or.inl rfl)]
      simp
    · have hbeq : (k' == c) = false := beq_eq_false_iff_ne.mpr hk
      rw [ih h.2]
      by_cases hc : c ∈ tl.map (·.1)
      · rw [if_pos hc, if_pos (Or.inr hc), hbeq]
        simp
      · have hnor : ¬(c = k' ∨ c ∈ tl.map (·.1)) := by
          rintro (h1 | h1)
          · exact hk h1.symm
          · exact hc h1
        rw [if_neg hc, hbeq, if_neg hnor]
        simp

theorem foldl_dictInsert_facts {α : Type} (name : α → String)
    (l : List α) :
    ∀ d : List (String × α),
      (d.map (·.1)).Nodup →
      (∀ e ∈ d, name e.2 = e.1) →
      (((l.foldl (fun d c => dictInsert (name c) c d) d).map (·.1)).Nodup ∧
       (∀ e ∈ l.foldl (fun d c => dictInsert (name c) c d) d,
         name e.2 = e.1) ∧
       (∀ e ∈ l.foldl (fun d c => dictInsert (name c) c d) d,
         e ∈ d ∨ e.2 ∈ l) ∧
       (∀ c, c ∈ (l.foldl (fun d c => dictInsert (name c) c d) d).map (·.1) ↔
         c ∈ d.map (·.1) ∨ c ∈ l.map name)) := by
  induction l with
  | nil =>
    intro d h1 h2
    refine ⟨h1, h2, fun e he => Or.inl he, fun c => by simp⟩
  | cons x xs ih =>
    intro d h1 h2
    simp only [List.foldl_cons]
    have hnd : ((dictInsert (name x) x d).map (·.1)).Nodup :=
      keys_nodup_dictInsert _ _ d h1
    have hkb : ∀ e ∈ dictInsert (name x) x d, name e.2 = e.1 := by
      intro e he
      rcases mem_dictInsert _ _ d e he with h | h
      · exact h2 e h
      · rw [h]
    obtain ⟨g1, g2, g3, g4⟩ := ih (dictInsert (name x) x d) hnd hkb
    refine ⟨g1, g2, ?_, ?_⟩
    · intro e he
      rcases g3 e he with h | h
      · rcases mem_dictInsert _ _ d e h with h | h
        · exact Or.inl h
        · exact Or.inr (by rw [h]; exact List.mem_cons_self _ _)
      · exact Or.inr (List.mem_cons_of_mem _ h)
    · intro c
      rw [g4 c, mem_keys_dictInsert]
      simp only [List.map_cons, List.mem_cons]
      tauto

theorem buildChampDict_facts {α : Type} (name : α → String) (l : List α) :
    ((HybridScraper.buildChampDict name l).map (·.1)).Nodup ∧
    (∀ e ∈ HybridScraper.buildChampDict name l, name e.2 = e.1) ∧
    (∀ e ∈ HybridScraper.buildChampDict name l, e.2 ∈ l) ∧
    (∀ c, c ∈ (HybridScraper.buildChampDict name l).map (·.1) ↔
      c ∈ l.map name) := by
  obtain ⟨h1, h2, h3, h4⟩ :=
    foldl_dictInsert_facts name l [] (by simp) (by simp)
  refine ⟨h1, h2, fun e he => ?_, fun c => ?_⟩
  · rcases h3 e he with h | h
    · simp at h
    · exact h
  · simpa using h4 c

/-- C4: `_combine_data_sources` produces exactly one champion entry per
name occurring in either source, that entry coming from the op.gg list
whenever the name occurs there (in particular when it occurs in both)
and otherwise being the converted Riot entry; the base account fields
come from the Riot record exactly when its level is greater or its
champion list longer, and otherwise from the op.gg record. -/
theorem scoutle_C4 (o : PlayerAccount) (r : RiotPlayerAccount)
    (now c : String) :
    ((HybridScraper.combine_data_sources o r now).champion_performances.countP
        (fun cp => cp.champion_name == c) =
      if c ∈ o.champion_performances.map ChampionPerformance.champion_name ∨
          c ∈ r.champion_performances.map RiotChampionPerformance.champion_name
        then 1 else 0) ∧
    (∀ cp ∈ (HybridScraper.combine_data_sources o r
        now).champion_performances, cp.champion_name = c →
      (c ∈ o.champion_performances.map ChampionPerformance.champion_name →
        cp ∈ o.champion_performances) ∧
      (c ∉ o.champion_performances.map ChampionPerformance.champion_name →
        ∃ rc ∈ r.champion_performances,
          cp = HybridScraper.convertRiotChamp rc ∧ rc.champion_name = c)) ∧
    ((r.level > o.level ∨ r.champion_performances.length >
        o.champion_performances.length) →
      (HybridScraper.combine_data_sources o r now).summoner_name =
          r.summoner_name ∧
        (HybridScraper.combine_data_sources o r now).region = r.region ∧
        (HybridScraper.combine_data_sources o r now).level = r.level ∧
        (HybridScraper.combine_data_sources o r now).soloq_rank =
          r.soloq_rank ∧
        (HybridScraper.combine_data_sources o r now).flex_rank =
          r.flex_rank ∧
        (HybridScraper.combine_data_sources o r now).soloq_lp = r.soloq_lp ∧
        (HybridScraper.combine_data_sources o r now).flex_lp = r.flex_lp) ∧
    (¬ (r.level > o.level ∨ r.champion_performances.length >
        o.champion_performances.length) →
      (HybridScraper.combine_data_sources o r now).summoner_name =
          o.summoner_name ∧
        (HybridScraper.combine_data_sources o r now).region = o.region ∧
        (HybridScraper.combine_data_sources o r now).level = o.level ∧
        (HybridScraper.combine_data_sources o r now).soloq_rank =
          o.soloq_rank ∧
        (HybridScraper.combine_data_sources o r now).flex_rank =
          o.flex_rank ∧
        (HybridScraper.combine_data_sources o r now).soloq_lp = o.soloq_lp ∧
        (HybridScraper.combine_data_sources o r now).flex_lp = o.flex_lp) := by
  obtain ⟨ond, okb, oor, oks⟩ :=
    buildChampDict_facts ChampionPerformance.champion_name
      o.champion_performances
  obtain ⟨rnd, rkb, ror, rks⟩ :=
    buildChampDict_facts RiotChampionPerformance.champion_name
      r.champion_performances
  have hchamps :
      (HybridScraper.combine_data_sources o r now).champion_performances =
      HybridScraper.sortByGamesDesc
        ((HybridScraper.buildChampDict ChampionPerformance.champion_name
            o.champion_performances).map (·.2) ++
          (((HybridScraper.buildChampDict
              RiotChampionPerformance.champion_name
              r.champion_performances).filter (fun e =>
                (lookupKey e.1 (HybridScraper.buildChampDict
                  ChampionPerformance.champion_name
                  o.champion_performances)).isNone)).map
            (fun e => HybridScraper.convertRiotChamp e.2))) := by
    simp only [HybridScraper.combine_data_sources]
    split <;> rfl
  refine ⟨?_, ?_, ?_, ?_⟩
  · rw [hchamps]
    rw [HybridScraper.sortByGamesDesc]
    rw [(List.mergeSort_perm _ _).countP_eq]
    rw [List.countP_append]
    have hA : ((HybridScraper.buildChampDict ChampionPerformance.champion_name
        o.champion_performances).map (·.2)).countP
        (fun cp => cp.champion_name == c) =
        if c ∈ o.champion_performances.map ChampionPerformance.champion_name
          then 1 else 0 := by
      rw [List.countP_map]
      rw [countP_congr_mem _ _ (fun e => e.1 == c)
        (fun e he => by simp only [Function.comp]; rw [← okb e he])]
      rw [countP_key_of_nodup c _ ond]
      rw [if_congr (oks c) rfl rfl]
    have hB : (((HybridScraper.buildChampDict
        RiotChampionPerformance.champion_name
        r.champion_performances).filter (fun e =>
          (lookupKey e.1 (HybridScraper.buildChampDict
            ChampionPerformance.champion_name
            o.champion_performances)).isNone)).map
        (fun e => HybridScraper.convertRiotChamp e.2)).countP
        (fun cp => cp.champion_name == c) =
        (if c ∈ o.champion_performances.map ChampionPerformance.champion_name
          then 0
        else if c ∈ r.champion_performances.map
            RiotChampionPerformance.champion_name then 1 else 0) := by
      rw [List.countP_map]
      rw [List.countP_filter]
      by_cases hco :
          c ∈ o.champion_performances.map ChampionPerformance.champion_name
      · rw [if_pos hco]
        rw [List.countP_eq_zero]
        intro e he hpe
        simp only [Function.comp, Bool.and_eq_true] at hpe
        obtain ⟨hpc, hq⟩ := hpe
        have hec : e.1 = c := by
          have : (HybridScraper.convertRiotChamp e.2).champion_name = c :=
            beq_iff_eq.mp hpc
          rw [← rkb e he]
          exact this
        rw [hec] at hq
        have hsome : (lookupKey c (HybridScraper.buildChampDict
            ChampionPerformance.champion_name
            o.champion_performances)).isSome := by
          rw [lookupKey_isSome_iff]
          exact (oks c).mpr hco
        rcases hlk : lookupKey c (HybridScraper.buildChampDict
            ChampionPerformance.champion_name o.champion_performances) with
          _ | v
        · rw [hlk] at hsome
          cases hsome
        · rw [hlk] at hq
          cases hq
      · rw [if_neg hco]
        have hnone : lookupKey c (HybridScraper.buildChampDict
            ChampionPerformance.champion_name
            o.champion_performances) = none := by
          rcases hlk : lookupKey c (HybridScraper.buildChampDict
              ChampionPerformance.champion_name o.champion_performances) with
            _ | v
          · rfl
          · exfalso
            apply hco
            apply (oks c).mp
            rw [← lookupKey_isSome_iff]
            rw [hlk]
            rfl
        have hpt : ∀ e ∈ HybridScraper.buildChampDict
            RiotChampionPerformance.champion_name r.champion_performances,
            (((fun cp => cp.champion_name == c) ∘
                (fun e => HybridScraper.convertRiotChamp e.2)) e &&
              (lookupKey e.1 (HybridScraper.buildChampDict
                ChampionPerformance.champion_name
                o.champion_performances)).isNone) = (e.1 == c) := by
          intro e he
          simp only [Function.comp]
          by_cases hec : e.1 = c
          · rw [hec, hnone]
            have hcv : (HybridScraper.convertRiotChamp e.2).champion_name =
                e.1 := by
              rw [← rkb e he]
              rfl
            rw [hcv, hec]
            simp
          · have h1 : ((HybridScraper.convertRiotChamp e.2).champion_name
                == c) = false := by
              rw [beq_eq_false_iff_ne]
              intro hcontra
              apply hec
              rw [← rkb e he]
              exact hcontra
            have h2 : (e.1 == c) = false := beq_eq_false_iff_ne.mpr hec
            rw [h1, h2]
            rfl
        rw [countP_congr_mem _ _ (fun e => e.1 == c) hpt]
        rw [countP_key_of_nodup c _ rnd]
        rw [if_congr (rks c) rfl rfl]
    rw [hA, hB]
    by_cases hco :
        c ∈ o.champion_performances.map ChampionPerformance.champion_name
    · simp [hco]
    · by_cases hcr : c ∈ r.champion_performances.map
          RiotChampionPerformance.champion_name <;> simp [hco, hcr]
  · intro cp hcp hname
    rw [hchamps] at hcp
    rw [HybridScraper.sortByGamesDesc] at hcp
    have hmem := (List.mergeSort_perm _
      (fun a b : ChampionPerformance =>
        decide (b.games_played ≤ a.games_played))).mem_iff.mp hcp
    rcases List.mem_append.mp hmem with hod | hex
    · obtain ⟨e, he, rfl⟩ := List.mem_map.mp hod
      have hco : c ∈ o.champion_performances.map
          ChampionPerformance.champion_name := by
        apply (oks c).mp
        rw [← hname, okb e he]
        exact List.mem_map_of_mem _ he
      exact ⟨fun _ => oor e he, fun hno => absurd hco hno⟩
    · obtain ⟨e, he, rfl⟩ := List.mem_map.mp hex
      have herd := List.mem_of_mem_filter he
      have hq := (List.mem_filter.mp he).2
      have hec : e.1 = c := by
        rw [← rkb e herd]
        exact hname
      constructor
      · intro hco
        exfalso
        have hsome : (lookupKey c (HybridScraper.buildChampDict
            ChampionPerformance.champion_name
            o.champion_performances)).isSome := by
          rw [lookupKey_isSome_iff]
          exact (oks c).mpr hco
        rw [hec] at hq
        rcases hlk : lookupKey c (HybridScraper.buildChampDict
            ChampionPerformance.champion_name o.champion_performances) with
          _ | v
        · rw [hlk] at hsome
          cases hsome
        · rw [hlk] at hq
          cases hq
      · intro _
        refine ⟨e.2, ror e herd, rfl, ?_⟩
        rw [← hname]
        rfl
  · intro hcond
    simp only [HybridScraper.combine_data_sources, if_pos hcond]
    simp
  · intro hcond
    simp only [HybridScraper.combine_data_sources, if_neg hcond]
    simp

/-- A concrete op.gg champion entry. -/
def cpFix : ChampionPerformance :=
  { champion_name := "Ahri"
    games_played := 10
    wins := 6
    losses := 4
    win_rate := 60
    kills := 5
    deaths := 3
    assists := 7
    kda := 4
    cs_per_min := 7
    queue_type := "soloq" }

/-- A concrete Riot champion entry for a different champion. -/
def rcpFix : RiotChampionPerformance :=
  { champion_name := "Zed"
    champion_id := 238
    games_played := 4
    wins := 2
    losses := 2
    win_rate := 50
    kills := 6
    deaths := 4
    assists := 3
    kda := 9 / 4
    cs_per_min := 8
    queue_type := "soloq" }

/-- A concrete op.gg account. -/
def oFix : PlayerAccount :=
  { summoner_name := "Odd"
    region := "euw"
    level := 200
    soloq_rank := "GOLD 1"
    flex_rank := "SILVER 2"
    soloq_lp := 50
    flex_lp := 20
    champion_performances := [cpFix]
    last_updated := "2024-01-01" }

/-- A concrete Riot account with a higher level. -/
def rFix : RiotPlayerAccount :=
  { summoner_name := "OddKimmy"
    summoner_id := "S1"
    puuid := "PUUID_A"
    region := "euw"
    level := 250
    soloq_rank := "GOLD 1"
    flex_rank := "SILVER 2"
    soloq_lp := 55
    flex_lp := 25
    champion_performances := [rcpFix]
    last_updated := "2024-01-02" }

/-- Witness for C4 on concrete accounts. -/
theorem scoutle_C4_witness :
    (HybridScraper.combine_data_sources oFix rFix
        "2024-01-03").champion_performances.countP
      (fun cp => cp.champion_name == "Ahri") = 1 ∧
    (HybridScraper.combine_data_sources oFix rFix
        "2024-01-03").champion_performances.countP
      (fun cp => cp.champion_name == "Zed") = 1 ∧
    (HybridScraper.combine_data_sources oFix rFix "2024-01-03").level =
      rFix.level :=
  ⟨(scoutle_C4 oFix rFix "2024-01-03" "Ahri").1.trans
      (if_pos (Or.inl (by decide))),
   (scoutle_C4 oFix rFix "2024-01-03" "Zed").1.trans
      (if_pos (Or.inr (by decide))),
   ((scoutle_C4 oFix rFix "2024-01-03" "Zed").2.2.1
      (Or.inl (by decide))).2.2.1⟩
